import Mathlib

/-!
Verification of the pyLiDAR-SLAM odometry core.

This file gives a shallow embedding of the ICP frame-to-model odometry
orchestrator (`slam/odometry/icp_odometry.py`), the shape-checking helpers
(`slam/common/utils.py`), and the Gauss-Newton point-to-plane alignment entry
point (`src/pylidar_slam/odometry/alignment.py`), and proves the frozen claims
about them.

Modelling conventions:

* Machine floats are rendered as elements of an arbitrary linearly ordered
  commutative ring `K` with decidable order (every finite set of float values
  embeds into such a ring by exact arithmetic; the claims under scrutiny are
  control-flow claims, insensitive to which ring carries the values).  Torch
  norm comparisons `v.norm() < t` and `v.norm() > t` are rendered by the
  mathematically equivalent square comparisons (`norm_lt`, `norm_gt` below),
  which avoids square roots while preserving each comparison's truth value
  exactly.
* 4x4 homogeneous pose matrices (`torch.eye(4)`, `@` matrix products) are
  `Matrix (Fin 4) (Fin 4) K`; the batch dimension of size 1 that the Python
  code threads through (`(1, 4, 4)` tensors) is dropped, as every such tensor
  in the orchestrator has batch size exactly 1.
* Components whose implementation files are not part of the repository
  snapshot (the `Pose` algebra, the local map's neighbor search, the
  Gauss-Newton solver, the projector, `projection_map_to_points`,
  `mask_not_null`) enter the embedding either as abstract parameters collected
  in the `Oracle` structure, or as small definitions modelled from the spec
  (marked `Modelled from the spec:` in their doc comments).
* Python exceptions are modelled by the `PyErr` type; a function that can
  raise returns an `Except PyErr` value or pairs its result with
  `Option PyErr`.  A raised error propagates, so the caller observes no new
  state, which mirrors the exception unwinding of `do_process_next_frame`.
-/

/-- A 3D point: one cell of a vertex map or one entry of a point cloud, as an
exact triple of scalar values. -/
abbrev Point (K : Type) : Type := K × K × K

/-- Squared Euclidean norm of a 3D point. -/
def sumSqP {K : Type} [LinearOrderedCommRing K] (p : Point K) : K :=
  p.1 * p.1 + p.2.1 * p.2.1 + p.2.2 * p.2.2

/-- Squared Euclidean norm of a parameter vector (a flat list of scalars, as
torch's `tensor.norm()` consumes it). -/
def sumSqL {K : Type} [LinearOrderedCommRing K] (v : List K) : K :=
  (v.map (fun x => x * x)).sum

/-- Exact rendering of the float comparison `v.norm() < t`: the norm is
nonnegative, so it is below `t` iff `t` is positive and the squared norm is
below `t * t`. -/
def norm_lt {K : Type} [LinearOrderedCommRing K] (v : List K) (t : K) : Bool :=
  decide (0 < t) && decide (sumSqL v < t * t)

/-- Exact rendering of the float comparison `v.norm() > t`: the norm is
nonnegative, so it exceeds `t` iff `t` is negative or the squared norm
exceeds `t * t`. -/
def norm_gt {K : Type} [LinearOrderedCommRing K] (v : List K) (t : K) : Bool :=
  decide (t < 0) || decide (t * t < sumSqL v)

/-- A 4x4 homogeneous pose matrix (`torch.eye(4)`-shaped tensors with the
batch dimension dropped). -/
abbrev Mat4 (K : Type) : Type := Matrix (Fin 4) (Fin 4) K

/-- The Python exceptions the odometry code can raise: `assert_debug`
failures (`AssertionError`) and the explicit `RuntimeError` of
`_read_input`. -/
inductive PyErr where
  | assertionError
  | runtimeError
deriving DecidableEq

/-- Embedding of `sizes_match` (`slam/common/utils.py`): `True` iff the
tensor's shape has the same number of dimensions as `sizes` and every entry
of `sizes` other than `-1` equals the corresponding shape entry.  The tensor
enters only through its shape, a list of naturals; `sizes` entries are
integers so the `-1` wildcard is representable. -/
def sizes_match (tensor_shape : List ℕ) (sizes : List ℤ) : Bool :=
  if tensor_shape.length ≠ sizes.length then false
  else (List.range sizes.length).all fun i =>
    !((sizes.getD i 0 != -1) && (sizes.getD i 0 != (tensor_shape.getD i 0 : ℤ)))

/-- Embedding of `check_sizes` (`slam/common/utils.py`): raises
`AssertionError` (through `assert_debug`) exactly when `sizes_match` is
`False`; on success it returns `()` and, being pure, leaves the tensor
unchanged. -/
def check_sizes (tensor_shape : List ℕ) (sizes : List ℤ) : Except PyErr Unit :=
  if sizes_match tensor_shape sizes then Except.ok () else Except.error PyErr.assertionError

/-- A torch tensor as the alignment entry point sees it: a shape, a dtype
id, a device id, and the flat scalar data.  Only the shape, dtype and device
drive control flow in `GaussNewtonPointToPlaneAlignment.align`; the data is
carried so the all-zero initial estimate is represented explicitly. -/
structure Tensor (K : Type) where
  shape : List ℕ
  dtype : ℕ
  device : ℕ
  data : List K
deriving DecidableEq

/-- Embedding of `torch.zeros(b, p, dtype=.., device=..)`. -/
def zeros_tensor {K : Type} [LinearOrderedCommRing K] (b p dtypeId deviceId : ℕ) : Tensor K :=
  ⟨[b, p], dtypeId, deviceId, List.replicate (b * p) 0⟩

/-- The slice of the `Pose` class (`slam/common/pose.py`, absent from the
repository snapshot) that `GaussNewtonPointToPlaneAlignment.align` uses.
Modelled from the spec: a pose representation has a fixed parameter count
`num_params` and an inverse mapping `from_pose_matrix` from pose matrices to
parameter vectors; both stay abstract. -/
structure PoseOps (K : Type) where
  num_params : ℕ
  from_pose_matrix_t : Tensor K → Tensor K

/-- Embedding of `GaussNewtonPointToPlaneAlignment.align`
(`src/pylidar_slam/odometry/alignment.py`).  `gn_compute` abstracts
`self.gauss_newton.compute` with the point-to-plane residual and jacobian
closures already built from the last three arguments (the `GaussNewton`
solver's file is absent from the snapshot); it receives the resolved initial
estimate first.  The function mirrors the Python dispatch on
`initial_estimate`: `None` becomes the all-zero parameter vector with the
batch size, dtype and device of `ref_points`; a 3-dimensional pose matrix is
converted through `pose.from_pose_matrix`; anything else is used as given. -/
def gauss_newton_align {K : Type} [LinearOrderedCommRing K] (pose : PoseOps K)
    (gn_compute : Tensor K → Tensor K → Tensor K → Tensor K → Tensor K × Tensor K)
    (ref_points tgt_points ref_normals : Tensor K)
    (initial_estimate : Option (Tensor K)) : Tensor K × Tensor K :=
  let est :=
    match initial_estimate with
    | none =>
        zeros_tensor (ref_points.shape.headD 0) pose.num_params
          ref_points.dtype ref_points.device
    | some e => if e.shape.length = 3 then pose.from_pose_matrix_t e else e
  gn_compute est tgt_points ref_points ref_normals

/-- A vertex map: the `(3, H, W)` grid of 3D cell values, flattened to the
list of its cells.  The grid dimensions play no role after `_read_input`'s
shape checks, so they are not carried. -/
abbrev VMap (K : Type) : Type := List (Point K)

/-- The optional `"normal_map"` payload of a frame, forwarded untouched to
the local map's full update. -/
abbrev NMap (K : Type) : Type := List (Point K)

/-- The value found under the configured data key of an input frame:
a numpy array, a torch tensor (each carried with its shape and its cell
values read as 3D points), or a value of any other type. -/
inductive FrameData (K : Type) where
  | npArray (shape : List ℕ) (content : List (Point K))
  | torchTensor (shape : List ℕ) (content : List (Point K))
  | other
deriving DecidableEq

/-- An input frame (the `data_dict`): the value under the configured data
key when that key is present, and the optional `"normal_map"` entry. -/
structure Frame (K : Type) where
  payload : Option (FrameData K)
  normalMap : Option (NMap K)
deriving DecidableEq

/-- Modelled from the spec: `projection_map_to_points`
(`slam/common/geometry.py`, absent from the snapshot) converts a vertex map
into the list of its per-cell 3D points; on the flattened `VMap`
representation it returns the cells in grid order. -/
def projection_map_to_points {K : Type} (v : VMap K) : List (Point K) := v

/-- Modelled from the spec: `mask_not_null` (`slam/common/geometry.py`,
absent from the snapshot) marks the cells of a vertex map that hold a
return; a cell equal to the origin vector means "no point", so the mask is
true exactly on cells of nonzero norm. -/
def mask_not_null {K : Type} [LinearOrderedCommRing K] (v : VMap K) : List Bool :=
  v.map fun p => decide (sumSqP p ≠ 0)

/-- The collaborators of `ICPFrameToModel` whose implementations are not in
the repository snapshot, abstracted as opaque functions: the `Pose` algebra
(`apply_transformation`, `build_pose_matrix`, `from_pose_matrix`), the local
map's `nearest_neighbor_search`, the rigid alignment's `align` (its
Gauss-Newton core), the projector's `build_projection_map`, and the motion
model's `next_initial_pose`.  `degFactor` is the positive float constant
`180 / np.pi` that `__update_map` multiplies the rotation norm by. -/
structure Oracle (K : Type) where
  applyTransformation : Mat4 K → Point K → Point K
  nnSearch : List (Point K) → List (Point K) × List (Point K) × List (Point K)
  align : List (Point K) → List (Point K) → List (Point K) → List K × List K
  buildPoseMatrix : List K → Mat4 K
  fromPoseMatrix : Mat4 K → List K
  buildProjectionMap : List (Point K) → VMap K
  nextInitialPose : List (Mat4 K) → Frame K → Option (Mat4 K)
  degFactor : K

/-- One iteration of the registration loop of `register_new_frame`, as
recorded for the proofs: the query points handed to
`nearest_neighbor_search`, the delta-pose parameters the alignment returned,
and the summed residual loss appended to `losses`. -/
structure IterRecord (K : Type) where
  queries : List (Point K)
  delta : List K
  loss : K
deriving DecidableEq

instance {K : Type} [LinearOrderedCommRing K] : Inhabited (IterRecord K) := ⟨⟨[], [], 0⟩⟩

/-- The straight-line body of one pass of the registration loop of
`register_new_frame` (`slam/odometry/icp_odometry.py`, lines 162-174):
transform the (pre-filtered) target points by the current estimate, run the
neighbor search on them, run the rigid alignment on the returned
`(neigh_pc, tgt_pc, neigh_normals)` correspondences, and sum the residuals
into the loss. -/
def loop_iter {K : Type} [LinearOrderedCommRing K] (o : Oracle K)
    (old_target_points : List (Point K)) (new_pose_matrix : Mat4 K) : IterRecord K :=
  let target_points := old_target_points.map (o.applyTransformation new_pose_matrix)
  let nn := o.nnSearch target_points
  let ar := o.align nn.1 nn.2.2 nn.2.1
  ⟨target_points, ar.1, ar.2.sum⟩

/-- The `for _ in range(self.gn_max_iters)` loop of `register_new_frame`
(`slam/odometry/icp_odometry.py`, lines 161-179), with the remaining
iteration budget as fuel.  Each pass runs `loop_iter`, appends its loss,
then tests the delta-pose norm: below the threshold it breaks (before
composing), otherwise it composes `build_pose_matrix(delta) @
new_pose_matrix` and continues. -/
def register_loop {K : Type} [LinearOrderedCommRing K] (o : Oracle K)
    (threshold_delta_pose : K) (old_target_points : List (Point K)) :
    ℕ → Mat4 K → List (IterRecord K) → Mat4 K × List (IterRecord K)
  | 0, new_pose_matrix, trace => (new_pose_matrix, trace)
  | fuel + 1, new_pose_matrix, trace =>
    let r := loop_iter o old_target_points new_pose_matrix
    if norm_lt r.delta threshold_delta_pose then (new_pose_matrix, trace ++ [r])
    else register_loop o threshold_delta_pose old_target_points fuel
      (o.buildPoseMatrix r.delta * new_pose_matrix) (trace ++ [r])

/-- Embedding of `register_new_frame` (`slam/odometry/icp_odometry.py`):
a missing initial estimate becomes `torch.eye(4)`; the target vertex map is
flattened to points and the zero-norm "no return" cells are filtered out
once, before the loop; then the registration loop runs with
`gn_max_iters = config.max_num_alignments` as its bound.  Returns the final
pose matrix together with the per-iteration trace (whose `loss` components
are the `losses` list the Python function returns). -/
def register_new_frame {K : Type} [LinearOrderedCommRing K] (o : Oracle K)
    (gn_max_iters : ℕ) (threshold_delta_pose : K)
    (target_vmap : VMap K) (initial_estimate : Option (Mat4 K)) :
    Mat4 K × List (IterRecord K) :=
  let new_pose_matrix := initial_estimate.getD (1 : Mat4 K)
  let old_target_points :=
    (projection_map_to_points target_vmap).filter fun p => decide (0 < sumSqP p)
  register_loop o threshold_delta_pose old_target_points gn_max_iters new_pose_matrix []

/-- The recognized configuration options of `ICPFrameToModelConfig` that the
processed claims depend on.  The configured `data_key` is abstracted away:
a `Frame`'s `payload` field already stands for the value found under that
key. -/
structure Config (K : Type) where
  max_num_alignments : ℕ
  threshold_delta_pose : K
  threshold_trans : K
  threshold_rot : K
deriving DecidableEq

/-- One call to `local_map.update`, as the orchestrator issues it: the
relative pose plus the optional keyword arguments.  The first-frame seeding
passes only `new_vertex_map`; a full map update passes vertex map, point
cloud, optional normal map and a not-null mask; a pose-only update passes
the pose alone. -/
structure MapUpdateCall (K : Type) where
  rpose : Mat4 K
  new_vertex_map : Option (VMap K)
  new_pc_data : Option (List (Point K))
  normal_map : Option (NMap K)
  mask : Option (List Bool)

/-- The mutable state of an `ICPFrameToModel` instance: the recorded
relative poses, the frame counter `_iter`, the per-frame read buffers
`_tgt_vmap`/`_tgt_pc`, and `_delta_since_map_update`.  The histories
`mapCalls`, `motionCalls` and `regTraces` log, in order, every
`local_map.update` call, every `_motion_model.register_motion` call, and
every `register_new_frame` invocation's iteration trace; they stand for the
observable effects on the stateful collaborators. -/
structure OdomState (K : Type) where
  relative_poses : List (Mat4 K)
  iter : ℕ
  tgt_vmap : Option (VMap K)
  tgt_pc : Option (List (Point K))
  delta_since_map_update : Mat4 K
  mapCalls : List (MapUpdateCall K)
  motionCalls : List (Mat4 K)
  regTraces : List (List (IterRecord K))

/-- The state `init()` establishes: empty pose and call histories, frame
counter zero, and `_delta_since_map_update = torch.eye(4)`. -/
def init_state {K : Type} [LinearOrderedCommRing K] : OdomState K :=
  ⟨[], 0, none, none, 1, [], [], []⟩

/-- The data interpretation of `_read_input` (`slam/odometry/icp_odometry.py`,
lines 196-228), for a present data key.  A numpy array must be `(N, 3)`
(`check_sizes(data, [-1, 3])`) and is sent through the projector; a torch
tensor of 3 or 4 dimensions is used as a vertex map after the batch checks
(`data.shape[0] == 1` for 4 dimensions, then `check_sizes(vmap, [1, 3, -1, -1])`)
with its non-null cells as the point cloud; any other torch tensor must be
2-dimensional and is sent through the projector, which (modelled from the
spec, the projector's file being absent from the snapshot) accepts exactly
`(N, 3)` point sets; any other value raises `RuntimeError`. -/
def interpret_data {K : Type} [LinearOrderedCommRing K] (o : Oracle K) :
    FrameData K → Except PyErr (VMap K × List (Point K))
  | FrameData.npArray shape content =>
    if sizes_match shape [-1, 3] then
      Except.ok (o.buildProjectionMap content, content)
    else Except.error PyErr.assertionError
  | FrameData.torchTensor shape content =>
    if shape.length = 3 ∨ shape.length = 4 then
      if shape.length = 4 ∧ shape.headD 0 ≠ 1 then Except.error PyErr.assertionError
      else
        if sizes_match (if shape.length = 3 then 1 :: shape else shape) [1, 3, -1, -1] then
          Except.ok (content, content.filter fun p => decide (sumSqP p ≠ 0))
        else Except.error PyErr.assertionError
    else
      if shape.length = 2 then
        if sizes_match shape [-1, 3] then
          Except.ok (o.buildProjectionMap content, content)
        else Except.error PyErr.assertionError
      else Except.error PyErr.assertionError
  | FrameData.other => Except.error PyErr.runtimeError

/-- Embedding of `__update_map` (`slam/odometry/icp_odometry.py`, lines
230-250): compose the accumulated delta with the new relative pose, read its
parameters through `from_pose_matrix`, and either issue a full map update
and reset the delta to the identity (when the translation norm exceeds
`threshold_trans` or the rotation norm in degrees exceeds `threshold_rot`)
or issue a pose-only update and store the composed delta. -/
def update_map {K : Type} [LinearOrderedCommRing K] (cfg : Config K) (o : Oracle K)
    (s : OdomState K) (new_rpose : Mat4 K) (data_dict : Frame K) : OdomState K :=
  let new_delta := s.delta_since_map_update * new_rpose
  let delta_params := o.fromPoseMatrix new_delta
  if norm_gt (delta_params.take 3) cfg.threshold_trans ||
      norm_gt ((delta_params.drop 3).map (fun x => x * o.degFactor)) cfg.threshold_rot then
    let new_mask := mask_not_null (s.tgt_vmap.getD [])
    let new_nmap := data_dict.normalMap
    { s with
      mapCalls := s.mapCalls ++ [⟨new_rpose, s.tgt_vmap, s.tgt_pc, new_nmap, some new_mask⟩],
      delta_since_map_update := 1 }
  else
    { s with
      mapCalls := s.mapCalls ++ [⟨new_rpose, none, none, none, none⟩],
      delta_since_map_update := new_delta }

/-- Embedding of `do_process_next_frame` (`slam/odometry/icp_odometry.py`,
lines 93-131).  The returned pair is the state after the call and the raised
exception, if any: a missing data key raises before the read buffers are
touched; a malformed payload clears the read buffers and raises; otherwise
the first frame seeds the local map with the identity pose and the vertex
map and records the identity relative pose, and every later frame queries
the motion model, registers the new frame, feeds the result to
`register_motion`, updates the map, and records the relative pose. -/
def do_process_next_frame {K : Type} [LinearOrderedCommRing K] (cfg : Config K)
    (o : Oracle K) (s : OdomState K) (data_dict : Frame K) : OdomState K × Option PyErr :=
  match data_dict.payload with
  | none => (s, some PyErr.assertionError)
  | some d =>
    match interpret_data o d with
    | Except.error e => ({ s with tgt_vmap := none, tgt_pc := none }, some e)
    | Except.ok (vmap, pc) =>
      let s1 := { s with tgt_vmap := some vmap, tgt_pc := some pc }
      if s1.iter = 0 then
        ({ s1 with
            mapCalls := s1.mapCalls ++ [⟨1, some vmap, none, none, none⟩],
            relative_poses := s1.relative_poses ++ [1],
            iter := s1.iter + 1 }, none)
      else
        let initial_estimate := o.nextInitialPose s1.motionCalls data_dict
        let reg := register_new_frame o cfg.max_num_alignments cfg.threshold_delta_pose
          vmap initial_estimate
        let s2 := { s1 with
            motionCalls := s1.motionCalls ++ [reg.1],
            regTraces := s1.regTraces ++ [reg.2] }
        let s3 := update_map cfg o s2 reg.1 data_dict
        ({ s3 with
            relative_poses := s3.relative_poses ++ [reg.1],
            iter := s3.iter + 1 }, none)

/-- Embedding of `get_relative_poses`: `None` when no frame has been
processed, otherwise the stacked `(n, 4, 4)` array of the recorded relative
poses — here the list of `n` pose matrices in processing order. -/
def get_relative_poses {K : Type} (s : OdomState K) : Option (List (Mat4 K)) :=
  if s.relative_poses.length = 0 then none else some s.relative_poses

/-- A sequence of `do_process_next_frame` calls, one per frame, stopping at
the first raised exception (a caller that lets the exception propagate makes
no further calls). -/
def process_frames {K : Type} [LinearOrderedCommRing K] (cfg : Config K) (o : Oracle K) :
    OdomState K → List (Frame K) → OdomState K × Option PyErr
  | s, [] => (s, none)
  | s, f :: rest =>
    match do_process_next_frame cfg o s f with
    | (s', none) => process_frames cfg o s' rest
    | (s', some e) => (s', some e)

/-- A concrete oracle (over `ℤ`) used to instantiate the claim theorems on
explicit inputs: the neighbor search returns its queries as all three
arrays, the alignment always returns the zero delta (so a registration
converges on its first pass), and `build_pose_matrix` returns twice the
identity, which is visibly different from the identity. -/
def wOracle : Oracle ℤ where
  applyTransformation := fun _ p => p
  nnSearch := fun pts => (pts, pts, pts)
  align := fun _ _ _ => ([0, 0, 0, 0, 0, 0], [0])
  buildPoseMatrix := fun _ => (2 : ℤ) • (1 : Mat4 ℤ)
  fromPoseMatrix := fun _ => [0, 0, 0, 0, 0, 0]
  buildProjectionMap := fun pts => pts
  nextInitialPose := fun _ _ => none
  degFactor := 57

/-- A concrete one-cell vertex map holding one valid (nonzero) return. -/
def wVmap : VMap ℤ := [((1 : ℤ), (0 : ℤ), (0 : ℤ))]

/-- A concrete well-formed frame payload: a `(3, 1, 1)` torch tensor with
one nonzero cell. -/
def wData : FrameData ℤ := FrameData.torchTensor [3, 1, 1] [((1 : ℤ), (2 : ℤ), (3 : ℤ))]

/-- The point cloud `_read_input` extracts from `wData` (its single cell is
not null, so the mask filter keeps it). -/
def wPc : List (Point ℤ) := [((1 : ℤ), (2 : ℤ), (3 : ℤ))]

/-- A concrete frame whose payload is `wData` and which carries no normal
map. -/
def wFrame : Frame ℤ := ⟨some wData, none⟩

/-- A concrete configuration: one alignment per frame, all thresholds 1. -/
def wCfg : Config ℤ := ⟨1, 1, 1, 1⟩

/-- A concrete state with frame counter 1 (one frame already processed). -/
def wState1 : OdomState ℤ :=
  ⟨[1], 1, none, none, 1, [⟨1, some wPc, none, none, none⟩], [], []⟩

/-- The acceptance predicate exactly as claim C6 words it, written for
comparison with the behavior of the embedded `_read_input`: the payload is
an `(N, 3)` numpy array, an `(N, 3)` tensor, a `(3, H, W)` tensor, or a
`(1, 3, H, W)` tensor. -/
def claim_accepts {K : Type} : FrameData K → Prop
  | FrameData.npArray shape _ => ∃ n, shape = [n, 3]
  | FrameData.torchTensor shape _ =>
      (∃ n, shape = [n, 3]) ∨ (∃ h w, shape = [3, h, w]) ∨ (∃ h w, shape = [1, 3, h, w])
  | FrameData.other => False

/-- The registration loop only appends to its accumulated trace: running it
from any starting trace yields the same pose and the starting trace followed
by the records produced from the empty trace. -/
lemma register_loop_append {K : Type} [LinearOrderedCommRing K] (o : Oracle K)
    (thr : K) (pts : List (Point K)) :
    ∀ (fuel : ℕ) (pose : Mat4 K) (trace : List (IterRecord K)),
      register_loop o thr pts fuel pose trace =
        ((register_loop o thr pts fuel pose []).1,
          trace ++ (register_loop o thr pts fuel pose []).2) := by
  intro fuel
  induction fuel with
  | zero => intro pose trace; simp [register_loop]
  | succ n ih =>
    intro pose trace
    simp only [register_loop]
    by_cases hb : norm_lt (loop_iter o pts pose).delta thr
    · simp [hb]
    · simp only [hb, if_false, Bool.false_eq_true]
      rw [ih _ (trace ++ [loop_iter o pts pose]), ih _ ([] ++ [loop_iter o pts pose])]
      simp

/-- The registration loop produces at most `fuel` records. -/
lemma register_loop_length_le {K : Type} [LinearOrderedCommRing K] (o : Oracle K)
    (thr : K) (pts : List (Point K)) :
    ∀ (fuel : ℕ) (pose : Mat4 K),
      (register_loop o thr pts fuel pose []).2.length ≤ fuel := by
  intro fuel
  induction fuel with
  | zero => intro pose; simp [register_loop]
  | succ n ih =>
    intro pose
    simp only [register_loop]
    by_cases hb : norm_lt (loop_iter o pts pose).delta thr
    · simp [hb]
    · simp only [hb, if_false, Bool.false_eq_true]
      rw [register_loop_append]
      simpa using Nat.add_le_add_left (ih _) 1

/-- With at least one unit of fuel the registration loop produces at least
one record (the loop body always runs once). -/
lemma register_loop_length_pos {K : Type} [LinearOrderedCommRing K] (o : Oracle K)
    (thr : K) (pts : List (Point K)) (fuel : ℕ) (pose : Mat4 K) (hf : 1 ≤ fuel) :
    1 ≤ (register_loop o thr pts fuel pose []).2.length := by
  cases fuel with
  | zero => omega
  | succ n =>
    simp only [register_loop]
    by_cases hb : norm_lt (loop_iter o pts pose).delta thr
    · simp [hb]
    · simp only [hb, if_false, Bool.false_eq_true]
      rw [register_loop_append]
      simp

/-- Every trace record other than the final one failed the convergence
test: the loop never keeps iterating past a converged delta. -/
lemma register_loop_no_early_stop {K : Type} [LinearOrderedCommRing K] (o : Oracle K)
    (thr : K) (pts : List (Point K)) :
    ∀ (fuel : ℕ) (pose : Mat4 K) (i : ℕ),
      i + 1 < (register_loop o thr pts fuel pose []).2.length →
      norm_lt ((register_loop o thr pts fuel pose []).2.getD i default).delta thr = false := by
  intro fuel
  induction fuel with
  | zero => intro pose i hi; simp [register_loop] at hi
  | succ n ih =>
    intro pose i hi
    simp only [register_loop] at hi ⊢
    by_cases hb : norm_lt (loop_iter o pts pose).delta thr
    · simp [hb] at hi
    · simp only [hb, if_false, Bool.false_eq_true] at hi ⊢
      rw [register_loop_append] at hi ⊢
      simp only [List.nil_append, List.singleton_append, List.length_cons] at hi ⊢
      cases i with
      | zero => simpa using hb
      | succ j =>
        simp only [List.getD_cons_succ]
        exact ih _ j (by omega)

/-- If the loop stopped short of its fuel, the final trace record passed the
convergence test: an early stop happens only through the delta-pose norm
dropping below the threshold. -/
lemma register_loop_last_conv {K : Type} [LinearOrderedCommRing K] (o : Oracle K)
    (thr : K) (pts : List (Point K)) :
    ∀ (fuel : ℕ) (pose : Mat4 K),
      (register_loop o thr pts fuel pose []).2.length < fuel →
      norm_lt ((register_loop o thr pts fuel pose []).2.getD
        ((register_loop o thr pts fuel pose []).2.length - 1) default).delta thr = true := by
  intro fuel
  induction fuel with
  | zero => intro pose h; simp [register_loop] at h
  | succ n ih =>
    intro pose h
    simp only [register_loop] at h ⊢
    by_cases hb : norm_lt (loop_iter o pts pose).delta thr
    · simp [hb]
    · simp only [hb, if_false, Bool.false_eq_true] at h ⊢
      rw [register_loop_append] at h ⊢
      simp only [List.nil_append, List.singleton_append, List.length_cons] at h ⊢
      have hlen : (register_loop o thr pts n
          (o.buildPoseMatrix (loop_iter o pts pose).delta * pose) []).2.length < n := by omega
      have hpos : 1 ≤ (register_loop o thr pts n
          (o.buildPoseMatrix (loop_iter o pts pose).delta * pose) []).2.length :=
        register_loop_length_pos o thr pts n _ (by omega)
      have := ih (o.buildPoseMatrix (loop_iter o pts pose).delta * pose) hlen
      rcases Nat.exists_eq_add_of_le hpos with ⟨k, hk⟩
      rw [hk] at this ⊢
      have hidx2 : 1 + k - 1 = k := by omega
      rw [hidx2] at this
      rw [show (1 : ℕ) + k = k + 1 from by omega]
      have hidx : k + 1 + 1 - 1 = k + 1 := by omega
      rw [hidx, List.getD_cons_succ]
      exact this

/-- The returned pose matrix is the left fold of the trace over the
starting estimate, composing `build_pose_matrix(delta)` exactly for the
records that failed the convergence test. -/
lemma register_loop_fold {K : Type} [LinearOrderedCommRing K] (o : Oracle K)
    (thr : K) (pts : List (Point K)) :
    ∀ (fuel : ℕ) (pose : Mat4 K),
      (register_loop o thr pts fuel pose []).1 =
        (register_loop o thr pts fuel pose []).2.foldl
          (fun m r => if norm_lt r.delta thr then m else o.buildPoseMatrix r.delta * m) pose := by
  intro fuel
  induction fuel with
  | zero => intro pose; simp [register_loop]
  | succ n ih =>
    intro pose
    simp only [register_loop]
    by_cases hb : norm_lt (loop_iter o pts pose).delta thr
    · simp [hb]
    · simp only [hb, if_false, Bool.false_eq_true]
      rw [register_loop_append]
      simp only [List.nil_append, List.singleton_append, List.foldl_cons, hb, if_false,
        Bool.false_eq_true]
      exact ih _

/-- Every query list the loop hands to the neighbor search is the image of
the pre-filtered target points under `apply_transformation` at some pose. -/
lemma register_loop_queries {K : Type} [LinearOrderedCommRing K] (o : Oracle K)
    (thr : K) (pts : List (Point K)) :
    ∀ (fuel : ℕ) (pose : Mat4 K) (rec : IterRecord K),
      rec ∈ (register_loop o thr pts fuel pose []).2 →
      ∃ m : Mat4 K, rec.queries = pts.map (o.applyTransformation m) := by
  intro fuel
  induction fuel with
  | zero => intro pose rec h; simp [register_loop] at h
  | succ n ih =>
    intro pose rec h
    simp only [register_loop] at h
    by_cases hb : norm_lt (loop_iter o pts pose).delta thr
    · simp [hb] at h
      exact ⟨pose, by simp [h, loop_iter]⟩
    · simp only [hb, if_false, Bool.false_eq_true] at h
      rw [register_loop_append] at h
      simp only [List.nil_append, List.singleton_append, List.mem_cons] at h
      rcases h with h | h
      · exact ⟨pose, by simp [h, loop_iter]⟩
      · exact ih _ rec h

/-- C1: with `max_num_alignments ≥ 1`, the registration loop body of
`register_new_frame` runs at most `max_num_alignments` times (and at least
once); it stops early exactly through the convergence test — every
non-final iteration's delta-pose norm was at or above
`threshold_delta_pose`, and whenever fewer than `max_num_alignments`
iterations ran, the final iteration's delta-pose norm was below it.
Reaching the cap is not an error: the function is total and returns the
accumulated pose estimate either way. -/
theorem claim_C1_registration_loop_cap {K : Type} [LinearOrderedCommRing K]
    (o : Oracle K) (max_num_alignments : ℕ) (threshold_delta_pose : K)
    (target_vmap : VMap K) (initial_estimate : Option (Mat4 K))
    (hmax : 1 ≤ max_num_alignments) :
    (register_new_frame o max_num_alignments threshold_delta_pose target_vmap
        initial_estimate).2.length ≤ max_num_alignments ∧
    1 ≤ (register_new_frame o max_num_alignments threshold_delta_pose target_vmap
        initial_estimate).2.length ∧
    (∀ i, i + 1 < (register_new_frame o max_num_alignments threshold_delta_pose target_vmap
        initial_estimate).2.length →
      norm_lt ((register_new_frame o max_num_alignments threshold_delta_pose target_vmap
        initial_estimate).2.getD i default).delta threshold_delta_pose = false) ∧
    ((register_new_frame o max_num_alignments threshold_delta_pose target_vmap
        initial_estimate).2.length < max_num_alignments →
      norm_lt ((register_new_frame o max_num_alignments threshold_delta_pose target_vmap
        initial_estimate).2.getD
          ((register_new_frame o max_num_alignments threshold_delta_pose target_vmap
            initial_estimate).2.length - 1) default).delta threshold_delta_pose = true) := by
  simp only [register_new_frame]
  exact ⟨register_loop_length_le _ _ _ _ _, register_loop_length_pos _ _ _ _ _ hmax,
    register_loop_no_early_stop _ _ _ _ _, register_loop_last_conv _ _ _ _ _⟩

/-- Witness for C1 at a concrete input: a one-point vertex map, three
allowed alignments, and an oracle whose alignment converges at once. -/
theorem claim_C1_witness :
    1 ≤ 3 ∧
    ((register_new_frame wOracle 3 1 wVmap none).2.length ≤ 3 ∧
      1 ≤ (register_new_frame wOracle 3 1 wVmap none).2.length ∧
      (∀ i, i + 1 < (register_new_frame wOracle 3 1 wVmap none).2.length →
        norm_lt ((register_new_frame wOracle 3 1 wVmap none).2.getD i default).delta 1 = false) ∧
      ((register_new_frame wOracle 3 1 wVmap none).2.length < 3 →
        norm_lt ((register_new_frame wOracle 3 1 wVmap none).2.getD
          ((register_new_frame wOracle 3 1 wVmap none).2.length - 1) default).delta 1 = true)) :=
  ⟨by decide, claim_C1_registration_loop_cap wOracle 3 1 wVmap none (by decide)⟩

/-- C2 (amended): in `register_new_frame` the delta-pose norm is tested
BEFORE the composition step, not after: the returned pose matrix is the fold
of the iteration trace over the initial estimate that composes
`build_pose_matrix(delta)` exactly for the iterations whose delta failed the
convergence test.  In particular the delta that triggers convergence is
discarded, not composed into the returned pose matrix. -/
theorem claim_C2_compose_after_test {K : Type} [LinearOrderedCommRing K]
    (o : Oracle K) (gn_max_iters : ℕ) (threshold_delta_pose : K)
    (target_vmap : VMap K) (initial_estimate : Option (Mat4 K)) :
    (register_new_frame o gn_max_iters threshold_delta_pose target_vmap initial_estimate).1 =
      (register_new_frame o gn_max_iters threshold_delta_pose target_vmap
          initial_estimate).2.foldl
        (fun m r => if norm_lt r.delta threshold_delta_pose then m
          else o.buildPoseMatrix r.delta * m)
        (initial_estimate.getD 1) := by
  simp only [register_new_frame]
  exact register_loop_fold _ _ _ _ _

/-- Counterexample to C2 as stated: on a concrete run whose single
iteration converges immediately, the returned pose matrix is the untouched
initial estimate (the identity), while composing the convergence-triggering
delta as the claim describes would give `build_pose_matrix(delta) @ eye`,
which differs from the returned matrix.  So the converging delta is NOT
composed into the returned pose. -/
theorem claim_C2_counterexample :
    (register_new_frame wOracle 5 1 wVmap (some 1)).2.length = 1 ∧
    norm_lt ((register_new_frame wOracle 5 1 wVmap (some 1)).2.getD 0 default).delta 1 = true ∧
    (register_new_frame wOracle 5 1 wVmap (some 1)).1 = (1 : Mat4 ℤ) ∧
    wOracle.buildPoseMatrix
        ((register_new_frame wOracle 5 1 wVmap (some 1)).2.getD 0 default).delta * (1 : Mat4 ℤ) ≠
      (register_new_frame wOracle 5 1 wVmap (some 1)).1 := by
  refine ⟨by decide, by decide, ?_, ?_⟩
  · show (1 : Mat4 ℤ) = 1
    rfl
  · show (2 : ℤ) • (1 : Mat4 ℤ) * 1 ≠ (1 : Mat4 ℤ)
    rw [mul_one]
    intro h
    have h00 := congrFun (congrFun h 0) 0
    simp [Matrix.smul_apply, Matrix.one_apply_eq] at h00

/-- C5: every point handed to `local_map.nearest_neighbor_search` by the
registration loop is the transform, under the current pose estimate, of a
vertex-map cell of strictly positive squared norm: the zero-vector "no
return" cells are filtered out before the loop, so no origin-sentinel cell
ever reaches the search. -/
theorem claim_C5_no_null_queries {K : Type} [LinearOrderedCommRing K]
    (o : Oracle K) (gn_max_iters : ℕ) (threshold_delta_pose : K)
    (target_vmap : VMap K) (initial_estimate : Option (Mat4 K)) (rec : IterRecord K)
    (hrec : rec ∈ (register_new_frame o gn_max_iters threshold_delta_pose target_vmap
      initial_estimate).2)
    (q : Point K) (hq : q ∈ rec.queries) :
    ∃ p, p ∈ projection_map_to_points target_vmap ∧ 0 < sumSqP p ∧
      ∃ m : Mat4 K, q = o.applyTransformation m p := by
  simp only [register_new_frame] at hrec
  obtain ⟨m, hm⟩ := register_loop_queries o threshold_delta_pose _ _ _ rec hrec
  rw [hm] at hq
  simp only [List.mem_map] at hq
  obtain ⟨p, hp, rfl⟩ := hq
  simp only [List.mem_filter] at hp
  exact ⟨p, hp.1, of_decide_eq_true hp.2, m, rfl⟩

/-- Witness for C5 at a concrete input: the single record of a concrete
registration trace and its single query point. -/
theorem claim_C5_witness :
    ((⟨[((1 : ℤ), (0 : ℤ), (0 : ℤ))], [0, 0, 0, 0, 0, 0], 0⟩ : IterRecord ℤ) ∈
        (register_new_frame wOracle 1 1 wVmap none).2) ∧
    ((((1 : ℤ), (0 : ℤ), (0 : ℤ)) : Point ℤ) ∈
        (⟨[((1 : ℤ), (0 : ℤ), (0 : ℤ))], [0, 0, 0, 0, 0, 0], 0⟩ : IterRecord ℤ).queries) ∧
    (∃ p, p ∈ projection_map_to_points wVmap ∧ 0 < sumSqP p ∧
      ∃ m : Mat4 ℤ, (((1 : ℤ), (0 : ℤ), (0 : ℤ)) : Point ℤ) = wOracle.applyTransformation m p) :=
  ⟨by decide, by decide,
    claim_C5_no_null_queries wOracle 1 1 wVmap none
      ⟨[((1 : ℤ), (0 : ℤ), (0 : ℤ))], [0, 0, 0, 0, 0, 0], 0⟩ (by decide)
      ((1 : ℤ), (0 : ℤ), (0 : ℤ)) (by decide)⟩

/-- Characterization of `sizes_match`: true iff the dimension counts agree
and every `sizes` entry is the wildcard `-1` or equals the matching shape
entry. -/
lemma sizes_match_iff (tensor_shape : List ℕ) (sizes : List ℤ) :
    sizes_match tensor_shape sizes = true ↔
      (tensor_shape.length = sizes.length ∧
        ∀ i, i < sizes.length →
          (sizes.getD i 0 = -1 ∨ sizes.getD i 0 = (tensor_shape.getD i 0 : ℤ))) := by
  unfold sizes_match
  by_cases hlen : tensor_shape.length = sizes.length
  · rw [if_neg (by simpa using hlen)]
    rw [List.all_eq_true]
    constructor
    · intro hall
      refine ⟨hlen, fun i hi => ?_⟩
      have hthis := hall i (List.mem_range.mpr hi)
      simp only [Bool.not_and, Bool.or_eq_true, Bool.not_eq_true',
        bne_eq_false_iff_eq] at hthis
      exact hthis
    · rintro ⟨_, hfor⟩ i hmem
      rcases hfor i (List.mem_range.mp hmem) with h1 | h1
      · simp only [h1, bne_self_eq_false, Bool.false_and, Bool.not_false]
      · simp only [h1, bne_self_eq_false, Bool.and_false, Bool.not_false]
  · rw [if_pos (by simpa using hlen)]
    simp only [Bool.false_eq_true, false_iff]
    rintro ⟨h, _⟩
    exact hlen h

/-- `sizes_match shape [-1, 3]` accepts exactly the two-dimensional shapes
with second entry 3 (the `(N, 3)` point-cloud contract). -/
lemma sizes_match_n3 (shape : List ℕ) :
    sizes_match shape [-1, 3] = true ↔ ∃ n, shape = [n, 3] := by
  rw [sizes_match_iff]
  constructor
  · rintro ⟨hlen, hfor⟩
    obtain ⟨a, b, rfl⟩ := List.length_eq_two.mp (by simpa using hlen)
    have h1 := hfor (0 + 1) (by decide)
    simp only [List.getD_cons_succ, List.getD_cons_zero] at h1
    rcases h1 with h1 | h1
    · exact absurd h1 (by decide)
    · exact ⟨a, by rw [show b = 3 from by exact_mod_cast h1.symm]⟩
  · rintro ⟨n, rfl⟩
    refine ⟨rfl, fun i hi => ?_⟩
    have hi' : i < 2 := by simpa using hi
    interval_cases i
    · exact Or.inl rfl
    · exact Or.inr (by norm_num)

/-- `sizes_match shape [1, 3, -1, -1]` accepts exactly the four-dimensional
shapes `[1, 3, h, w]` (the batched vertex-map contract). -/
lemma sizes_match_13hw (shape : List ℕ) :
    sizes_match shape [1, 3, -1, -1] = true ↔ ∃ h w, shape = [1, 3, h, w] := by
  rw [sizes_match_iff]
  constructor
  · rintro ⟨hlen, hfor⟩
    have hlen4 : shape.length = 4 := by simpa using hlen
    rcases shape with _ | ⟨a, _ | ⟨b, _ | ⟨c, _ | ⟨d, rest⟩⟩⟩⟩
    · simp at hlen4
    · simp at hlen4
    · simp at hlen4
    · simp at hlen4
    · have hrest : rest = [] := by
        refine List.length_eq_zero.mp ?_
        simp only [List.length_cons] at hlen4
        omega
      subst hrest
      have h0 := hfor 0 (by decide)
      have h1 := hfor (0 + 1) (by decide)
      simp only [List.getD_cons_succ, List.getD_cons_zero] at h0 h1
      rcases h0 with h0 | h0
      · exact absurd h0 (by decide)
      rcases h1 with h1 | h1
      · exact absurd h1 (by decide)
      refine ⟨c, d, ?_⟩
      rw [show a = 1 from by exact_mod_cast h0.symm,
        show b = 3 from by exact_mod_cast h1.symm]
  · rintro ⟨h, w, rfl⟩
    refine ⟨rfl, fun i hi => ?_⟩
    have hi' : i < 4 := by simpa using hi
    interval_cases i
    · exact Or.inr (by norm_num)
    · exact Or.inr (by norm_num)
    · exact Or.inl rfl
    · exact Or.inl rfl

/-- C10: `check_sizes` raises an `AssertionError` exactly when the number of
dimensions differs or some non-wildcard `sizes` entry differs from the
tensor's size in that dimension; equivalently, it returns normally exactly
when `sizes_match` is `True`.  The function is pure, so the tensor is
unchanged on success by construction. -/
theorem claim_C10_check_sizes (tensor_shape : List ℕ) (sizes : List ℤ) :
    (check_sizes tensor_shape sizes = Except.error PyErr.assertionError ↔
      (tensor_shape.length ≠ sizes.length ∨
        ∃ i, i < sizes.length ∧ sizes.getD i 0 ≠ -1 ∧
          sizes.getD i 0 ≠ (tensor_shape.getD i 0 : ℤ))) ∧
    (check_sizes tensor_shape sizes = Except.ok () ↔
      sizes_match tensor_shape sizes = true) := by
  unfold check_sizes
  by_cases h : sizes_match tensor_shape sizes = true
  · rw [if_pos h]
    obtain ⟨hlen, hfor⟩ := (sizes_match_iff tensor_shape sizes).mp h
    refine ⟨⟨fun hcontra => by simp at hcontra, fun hrhs => ?_⟩, by simp [h]⟩
    rcases hrhs with h1 | ⟨i, hi, h2, h3⟩
    · exact (h1 hlen).elim
    · rcases hfor i hi with h4 | h4
      · exact (h2 h4).elim
      · exact (h3 h4).elim
  · rw [if_neg h]
    refine ⟨⟨fun _ => ?_, fun _ => rfl⟩, by simp [h]⟩
    by_contra hno
    push_neg at hno
    obtain ⟨hlen, hfor⟩ := hno
    refine h ((sizes_match_iff tensor_shape sizes).mpr ⟨hlen, fun i hi => ?_⟩)
    rcases eq_or_ne (sizes.getD i 0) (-1) with h1 | h1
    · exact Or.inl h1
    · exact Or.inr (hfor i hi h1)

/-- `interpret_data` succeeds exactly on the payloads the claim's shape list
accepts: `(N, 3)` numpy arrays, `(N, 3)` tensors, `(3, H, W)` tensors and
`(1, 3, H, W)` tensors. -/
lemma interpret_data_ok_iff {K : Type} [LinearOrderedCommRing K] (o : Oracle K)
    (d : FrameData K) :
    (∃ v, interpret_data o d = Except.ok v) ↔ claim_accepts d := by
  cases d with
  | npArray shape content =>
    simp only [interpret_data, claim_accepts]
    rw [← sizes_match_n3]
    by_cases h : sizes_match shape [-1, 3] = true
    · simp [h]
    · simp [h]
  | other => simp [interpret_data, claim_accepts]
  | torchTensor shape content =>
    simp only [interpret_data, claim_accepts]
    by_cases h34 : shape.length = 3 ∨ shape.length = 4
    · rw [if_pos h34]
      by_cases hbad : shape.length = 4 ∧ shape.headD 0 ≠ 1
      · rw [if_pos hbad]
        constructor
        · rintro ⟨v, hv⟩; cases hv
        · rintro (⟨n, rfl⟩ | ⟨hh, ww, rfl⟩ | ⟨hh, ww, rfl⟩) <;> simp at hbad
      · rw [if_neg hbad]
        by_cases hsm : sizes_match (if shape.length = 3 then 1 :: shape else shape)
            [1, 3, -1, -1] = true
        · rw [if_pos hsm]
          constructor
          · intro _
            by_cases h3 : shape.length = 3
            · rw [if_pos h3] at hsm
              obtain ⟨hh, ww, heq⟩ := (sizes_match_13hw _).mp hsm
              exact Or.inr (Or.inl ⟨hh, ww, by simpa using heq⟩)
            · have h4 : shape.length = 4 := by
                rcases h34 with h | h
                · exact absurd h h3
                · exact h
              rw [if_neg h3] at hsm
              obtain ⟨hh, ww, heq⟩ := (sizes_match_13hw _).mp hsm
              exact Or.inr (Or.inr ⟨hh, ww, heq⟩)
          · intro _; exact ⟨_, rfl⟩
        · rw [if_neg hsm]
          constructor
          · rintro ⟨v, hv⟩; cases hv
          · rintro (⟨n, rfl⟩ | ⟨hh, ww, rfl⟩ | ⟨hh, ww, rfl⟩)
            · rcases h34 with h | h <;> simp at h
            · refine (hsm ?_).elim
              rw [if_pos (by simp)]
              exact (sizes_match_13hw _).mpr ⟨hh, ww, rfl⟩
            · refine (hsm ?_).elim
              rw [if_neg (by simp)]
              exact (sizes_match_13hw _).mpr ⟨hh, ww, rfl⟩
    · rw [if_neg h34]
      by_cases h2 : shape.length = 2
      · rw [if_pos h2]
        by_cases hsm : sizes_match shape [-1, 3] = true
        · rw [if_pos hsm]
          constructor
          · intro _; exact Or.inl ((sizes_match_n3 _).mp hsm)
          · intro _; exact ⟨_, rfl⟩
        · rw [if_neg hsm]
          constructor
          · rintro ⟨v, hv⟩; cases hv
          · rintro (⟨n, rfl⟩ | ⟨hh, ww, rfl⟩ | ⟨hh, ww, rfl⟩)
            · exact (hsm ((sizes_match_n3 _).mpr ⟨n, rfl⟩)).elim
            · exact (h34 (Or.inl (by simp))).elim
            · exact (h34 (Or.inr (by simp))).elim
      · rw [if_neg h2]
        constructor
        · rintro ⟨v, hv⟩; cases hv
        · rintro (⟨n, rfl⟩ | ⟨hh, ww, rfl⟩ | ⟨hh, ww, rfl⟩)
          · exact (h2 (by simp)).elim
          · exact (h34 (Or.inl (by simp))).elim
          · exact (h34 (Or.inr (by simp))).elim

/-- C6: `do_process_next_frame` raises an error (`AssertionError` or
`RuntimeError` — the only two constructors of `PyErr`) exactly when the
configured data key is absent or its value is not one of the accepted
payload shapes of `claim_accepts`; and whenever it raises, the recorded
pose sequence, the frame counter, and the motion-model and local-map call
histories are left unchanged. -/
theorem claim_C6_input_errors {K : Type} [LinearOrderedCommRing K] (cfg : Config K)
    (o : Oracle K) (s : OdomState K) (f : Frame K) :
    ((do_process_next_frame cfg o s f).2.isSome = true ↔
      ¬ ∃ d, f.payload = some d ∧ claim_accepts d) ∧
    ((do_process_next_frame cfg o s f).2.isSome = true →
      (do_process_next_frame cfg o s f).1.relative_poses = s.relative_poses ∧
      (do_process_next_frame cfg o s f).1.iter = s.iter ∧
      (do_process_next_frame cfg o s f).1.motionCalls = s.motionCalls ∧
      (do_process_next_frame cfg o s f).1.mapCalls = s.mapCalls) := by
  cases hpay : f.payload with
  | none =>
    simp only [do_process_next_frame, hpay]
    exact ⟨by simp, by simp⟩
  | some d =>
    simp only [do_process_next_frame, hpay]
    cases hint : interpret_data o d with
    | error e =>
      have hnacc : ¬ claim_accepts d := by
        intro hacc
        obtain ⟨v, hv⟩ := (interpret_data_ok_iff o d).mpr hacc
        rw [hint] at hv
        cases hv
      exact ⟨by simp [hnacc], by simp⟩
    | ok vp =>
      obtain ⟨vmap, pc⟩ := vp
      have hacc : claim_accepts d := (interpret_data_ok_iff o d).mp ⟨_, hint⟩
      by_cases hz : s.iter = 0
      · constructor
        · simp [hz, hacc]
        · simp [hz]
      · constructor
        · simp [hz, hacc]
        · simp [hz]

/-- Unfolding of the float comparison `‖v‖ > t` into its arithmetic
content. -/
lemma norm_gt_iff {K : Type} [LinearOrderedCommRing K] (v : List K) (t : K) :
    norm_gt v t = true ↔ (t < 0 ∨ t * t < sumSqL v) := by
  simp [norm_gt]

/-- `__update_map` never touches the pose history, the frame counter, the
motion-model history, the registration traces, or the read buffers. -/
lemma update_map_proj {K : Type} [LinearOrderedCommRing K] (cfg : Config K) (o : Oracle K)
    (s : OdomState K) (rp : Mat4 K) (f : Frame K) :
    (update_map cfg o s rp f).relative_poses = s.relative_poses ∧
    (update_map cfg o s rp f).iter = s.iter ∧
    (update_map cfg o s rp f).motionCalls = s.motionCalls ∧
    (update_map cfg o s rp f).regTraces = s.regTraces ∧
    (update_map cfg o s rp f).tgt_vmap = s.tgt_vmap ∧
    (update_map cfg o s rp f).tgt_pc = s.tgt_pc := by
  refine ⟨?_, ?_, ?_, ?_, ?_, ?_⟩ <;> (simp only [update_map]; split <;> rfl)

/-- When the composed delta exceeds a threshold, `__update_map` issues a
full map update and resets the accumulated delta to the identity. -/
lemma update_map_full {K : Type} [LinearOrderedCommRing K] (cfg : Config K) (o : Oracle K)
    (s : OdomState K) (rp : Mat4 K) (f : Frame K)
    (hb : (norm_gt ((o.fromPoseMatrix (s.delta_since_map_update * rp)).take 3)
        cfg.threshold_trans ||
      norm_gt (((o.fromPoseMatrix (s.delta_since_map_update * rp)).drop 3).map
        (fun x => x * o.degFactor)) cfg.threshold_rot) = true) :
    update_map cfg o s rp f =
      { s with
        mapCalls := s.mapCalls ++
          [⟨rp, s.tgt_vmap, s.tgt_pc, f.normalMap,
            some (mask_not_null (s.tgt_vmap.getD []))⟩],
        delta_since_map_update := 1 } := by
  simp only [update_map]
  rw [if_pos hb]

/-- When the composed delta stays within both thresholds, `__update_map`
issues a pose-only update and stores the composed delta. -/
lemma update_map_pose_only {K : Type} [LinearOrderedCommRing K] (cfg : Config K) (o : Oracle K)
    (s : OdomState K) (rp : Mat4 K) (f : Frame K)
    (hb : (norm_gt ((o.fromPoseMatrix (s.delta_since_map_update * rp)).take 3)
        cfg.threshold_trans ||
      norm_gt (((o.fromPoseMatrix (s.delta_since_map_update * rp)).drop 3).map
        (fun x => x * o.degFactor)) cfg.threshold_rot) = false) :
    update_map cfg o s rp f =
      { s with
        mapCalls := s.mapCalls ++ [⟨rp, none, none, none, none⟩],
        delta_since_map_update := s.delta_since_map_update * rp } := by
  simp only [update_map]
  rw [if_neg (by simp only [hb]; exact Bool.false_ne_true)]

/-- Unfolding of `do_process_next_frame` for a frame after the first: the
registration result is appended to the motion-model history and the trace
log, the map update runs on that state, and the relative pose is recorded
and the counter incremented afterwards. -/
lemma do_process_subsequent {K : Type} [LinearOrderedCommRing K] (cfg : Config K)
    (o : Oracle K) (s : OdomState K) (f : Frame K) (d : FrameData K) (vmap : VMap K)
    (pc : List (Point K)) (h0 : ¬ s.iter = 0) (hp : f.payload = some d)
    (hd : interpret_data o d = Except.ok (vmap, pc)) :
    ∃ rp trace s2,
      register_new_frame o cfg.max_num_alignments cfg.threshold_delta_pose vmap
        (o.nextInitialPose s.motionCalls f) = (rp, trace) ∧
      s2 = { s with tgt_vmap := some vmap, tgt_pc := some pc,
                    motionCalls := s.motionCalls ++ [rp],
                    regTraces := s.regTraces ++ [trace] } ∧
      do_process_next_frame cfg o s f =
        ({ update_map cfg o s2 rp f with
          relative_poses := (update_map cfg o s2 rp f).relative_poses ++ [rp],
          iter := (update_map cfg o s2 rp f).iter + 1 }, none) := by
  refine ⟨_, _, _, rfl, rfl, ?_⟩
  simp only [do_process_next_frame, hp, hd]
  simp [h0, register_new_frame]

/-- C3: for a frame after the first, with `D'` the product of the stored
cumulative delta with the new relative pose, the local map receives a full
update (vertex map, point cloud, optional normal map, not-null mask) and the
cumulative delta is reset to the identity exactly when the
translation-parameter norm of `D'` exceeds `threshold_trans` or its
rotation-parameter norm scaled to degrees exceeds `threshold_rot`
(the norm comparisons spelled as their squared forms); otherwise the local
map receives a pose-only update (no geometry arguments) and the stored
cumulative delta becomes `D'`. -/
theorem claim_C3_map_update_policy {K : Type} [LinearOrderedCommRing K] (cfg : Config K)
    (o : Oracle K) (s : OdomState K) (f : Frame K) (d : FrameData K) (vmap : VMap K)
    (pc : List (Point K)) (h0 : ¬ s.iter = 0) (hp : f.payload = some d)
    (hd : interpret_data o d = Except.ok (vmap, pc)) :
    (do_process_next_frame cfg o s f).2 = none ∧
    (((cfg.threshold_trans < 0 ∨ cfg.threshold_trans * cfg.threshold_trans <
        sumSqL ((o.fromPoseMatrix (s.delta_since_map_update *
          (register_new_frame o cfg.max_num_alignments cfg.threshold_delta_pose vmap
            (o.nextInitialPose s.motionCalls f)).1)).take 3)) ∨
      (cfg.threshold_rot < 0 ∨ cfg.threshold_rot * cfg.threshold_rot <
        sumSqL (((o.fromPoseMatrix (s.delta_since_map_update *
          (register_new_frame o cfg.max_num_alignments cfg.threshold_delta_pose vmap
            (o.nextInitialPose s.motionCalls f)).1)).drop 3).map
          (fun x => x * o.degFactor)))) →
      ((do_process_next_frame cfg o s f).1.mapCalls = s.mapCalls ++
          [⟨(register_new_frame o cfg.max_num_alignments cfg.threshold_delta_pose vmap
              (o.nextInitialPose s.motionCalls f)).1,
            some vmap, some pc, f.normalMap, some (mask_not_null vmap)⟩] ∧
        (do_process_next_frame cfg o s f).1.delta_since_map_update = 1)) ∧
    (¬((cfg.threshold_trans < 0 ∨ cfg.threshold_trans * cfg.threshold_trans <
        sumSqL ((o.fromPoseMatrix (s.delta_since_map_update *
          (register_new_frame o cfg.max_num_alignments cfg.threshold_delta_pose vmap
            (o.nextInitialPose s.motionCalls f)).1)).take 3)) ∨
      (cfg.threshold_rot < 0 ∨ cfg.threshold_rot * cfg.threshold_rot <
        sumSqL (((o.fromPoseMatrix (s.delta_since_map_update *
          (register_new_frame o cfg.max_num_alignments cfg.threshold_delta_pose vmap
            (o.nextInitialPose s.motionCalls f)).1)).drop 3).map
          (fun x => x * o.degFactor)))) →
      ((do_process_next_frame cfg o s f).1.mapCalls = s.mapCalls ++
          [⟨(register_new_frame o cfg.max_num_alignments cfg.threshold_delta_pose vmap
              (o.nextInitialPose s.motionCalls f)).1,
            none, none, none, none⟩] ∧
        (do_process_next_frame cfg o s f).1.delta_since_map_update =
          s.delta_since_map_update *
            (register_new_frame o cfg.max_num_alignments cfg.threshold_delta_pose vmap
              (o.nextInitialPose s.motionCalls f)).1)) := by
  obtain ⟨rp, trace, s2, hreg, hs2, heq⟩ := do_process_subsequent cfg o s f d vmap pc h0 hp hd
  have hds2 : s2.delta_since_map_update = s.delta_since_map_update := by rw [hs2]
  have hvs2 : s2.tgt_vmap = some vmap := by rw [hs2]
  have hps2 : s2.tgt_pc = some pc := by rw [hs2]
  have hms2 : s2.mapCalls = s.mapCalls := by rw [hs2]
  rw [heq, hreg]
  refine ⟨rfl, ?_, ?_⟩
  · intro hcond
    have hb : (norm_gt ((o.fromPoseMatrix (s2.delta_since_map_update * rp)).take 3)
        cfg.threshold_trans ||
        norm_gt (((o.fromPoseMatrix (s2.delta_since_map_update * rp)).drop 3).map
          (fun x => x * o.degFactor)) cfg.threshold_rot) = true := by
      rw [hds2, Bool.or_eq_true, norm_gt_iff, norm_gt_iff]
      exact hcond
    rw [update_map_full cfg o s2 rp f hb]
    constructor
    · simp [hvs2, hps2, hms2]
    · simp
  · intro hcond
    have hb : (norm_gt ((o.fromPoseMatrix (s2.delta_since_map_update * rp)).take 3)
        cfg.threshold_trans ||
        norm_gt (((o.fromPoseMatrix (s2.delta_since_map_update * rp)).drop 3).map
          (fun x => x * o.degFactor)) cfg.threshold_rot) = false := by
      rw [Bool.eq_false_iff]
      intro htrue
      apply hcond
      rw [hds2, Bool.or_eq_true, norm_gt_iff, norm_gt_iff] at htrue
      exact htrue
    rw [update_map_pose_only cfg o s2 rp f hb]
    constructor
    · simp [hms2]
    · simp [hds2]

/-- Witness for C3 at a concrete input: a state with frame counter 1 and a
well-formed frame; the theorem's hypotheses are discharged by evaluation. -/
theorem claim_C3_witness :
    (¬ wState1.iter = 0) ∧
    (do_process_next_frame wCfg wOracle wState1 wFrame).2 = none :=
  ⟨by decide,
    (claim_C3_map_update_policy wCfg wOracle wState1 wFrame wData wPc wPc
      (by decide) rfl (by rfl)).1⟩

/-- C4: on the first frame (counter 0) of any accepted input,
`do_process_next_frame` stores the read buffers, seeds the local map with
the identity pose and the frame's vertex map (and nothing else), appends the
identity as the frame's relative pose, and increments the counter; the
motion-model history, the registration trace log and the accumulated delta
are untouched — no registration happens, whatever the point content. -/
theorem claim_C4_first_frame {K : Type} [LinearOrderedCommRing K] (cfg : Config K)
    (o : Oracle K) (s : OdomState K) (f : Frame K) (d : FrameData K) (vmap : VMap K)
    (pc : List (Point K)) (h0 : s.iter = 0) (hp : f.payload = some d)
    (hd : interpret_data o d = Except.ok (vmap, pc)) :
    do_process_next_frame cfg o s f =
      ({ s with tgt_vmap := some vmap, tgt_pc := some pc,
                mapCalls := s.mapCalls ++ [⟨1, some vmap, none, none, none⟩],
                relative_poses := s.relative_poses ++ [1],
                iter := s.iter + 1 }, none) := by
  simp only [do_process_next_frame, hp, hd]
  simp [h0]

/-- Witness for C4 at a concrete input: the initial state and a well-formed
frame. -/
theorem claim_C4_witness :
    (init_state : OdomState ℤ).iter = 0 ∧
    do_process_next_frame wCfg wOracle (init_state : OdomState ℤ) wFrame =
      ({ (init_state : OdomState ℤ) with
          tgt_vmap := some wPc, tgt_pc := some wPc,
          mapCalls := (init_state : OdomState ℤ).mapCalls ++ [⟨1, some wPc, none, none, none⟩],
          relative_poses := (init_state : OdomState ℤ).relative_poses ++ [1],
          iter := (init_state : OdomState ℤ).iter + 1 }, none) :=
  ⟨rfl, claim_C4_first_frame wCfg wOracle init_state wFrame wData wPc wPc rfl rfl (by rfl)⟩

/-- C7 (amended): for every frame after the first that completes without
error, `register_motion` is invoked exactly once, with the converged
relative pose of that frame — the same matrix appended to the pose
history. -/
theorem claim_C7_register_motion_once {K : Type} [LinearOrderedCommRing K] (cfg : Config K)
    (o : Oracle K) (s : OdomState K) (f : Frame K) (d : FrameData K) (vmap : VMap K)
    (pc : List (Point K)) (h0 : ¬ s.iter = 0) (hp : f.payload = some d)
    (hd : interpret_data o d = Except.ok (vmap, pc)) :
    (do_process_next_frame cfg o s f).2 = none ∧
    ∃ rp, rp = (register_new_frame o cfg.max_num_alignments cfg.threshold_delta_pose vmap
        (o.nextInitialPose s.motionCalls f)).1 ∧
      (do_process_next_frame cfg o s f).1.motionCalls = s.motionCalls ++ [rp] ∧
      (do_process_next_frame cfg o s f).1.relative_poses = s.relative_poses ++ [rp] := by
  obtain ⟨rp, trace, s2, hreg, hs2, heq⟩ := do_process_subsequent cfg o s f d vmap pc h0 hp hd
  rw [heq]
  refine ⟨rfl, rp, ?_, ?_, ?_⟩
  · rw [hreg]
  · show (update_map cfg o s2 rp f).motionCalls = s.motionCalls ++ [rp]
    rw [(update_map_proj cfg o s2 rp f).2.2.1, hs2]
  · show (update_map cfg o s2 rp f).relative_poses ++ [rp] = s.relative_poses ++ [rp]
    rw [(update_map_proj cfg o s2 rp f).1, hs2]

/-- Counterexample to C7 as stated: the first frame of a sequence is
processed without error, yet `register_motion` is invoked zero times, not
exactly once. -/
theorem claim_C7_counterexample :
    (do_process_next_frame wCfg wOracle (init_state : OdomState ℤ) wFrame).2 = none ∧
    (do_process_next_frame wCfg wOracle (init_state : OdomState ℤ) wFrame).1.motionCalls.length
      = 0 ∧
    (do_process_next_frame wCfg wOracle (init_state : OdomState ℤ) wFrame).1.motionCalls.length
      ≠ (init_state : OdomState ℤ).motionCalls.length + 1 :=
  ⟨rfl, rfl, by decide⟩

/-- Witness for the amended C7 at a concrete input: a state with frame
counter 1 and a well-formed frame. -/
theorem claim_C7_witness :
    (¬ wState1.iter = 0) ∧
    ((do_process_next_frame wCfg wOracle wState1 wFrame).2 = none ∧
      ∃ rp, rp = (register_new_frame wOracle wCfg.max_num_alignments wCfg.threshold_delta_pose
          wPc (wOracle.nextInitialPose wState1.motionCalls wFrame)).1 ∧
        (do_process_next_frame wCfg wOracle wState1 wFrame).1.motionCalls =
          wState1.motionCalls ++ [rp] ∧
        (do_process_next_frame wCfg wOracle wState1 wFrame).1.relative_poses =
          wState1.relative_poses ++ [rp]) :=
  ⟨by decide,
    claim_C7_register_motion_once wCfg wOracle wState1 wFrame wData wPc wPc (by decide) rfl
      (by rfl)⟩

/-- Every error-free call appends exactly one relative pose. -/
lemma do_process_ok_append {K : Type} [LinearOrderedCommRing K] (cfg : Config K)
    (o : Oracle K) (s : OdomState K) (f : Frame K) (s' : OdomState K)
    (h : do_process_next_frame cfg o s f = (s', none)) :
    ∃ rp, s'.relative_poses = s.relative_poses ++ [rp] := by
  cases hpay : f.payload with
  | none => simp [do_process_next_frame, hpay] at h
  | some d =>
    cases hint : interpret_data o d with
    | error e => simp [do_process_next_frame, hpay, hint] at h
    | ok vp =>
      obtain ⟨vmap, pc⟩ := vp
      by_cases hz : s.iter = 0
      · simp only [do_process_next_frame, hpay, hint] at h
        simp only [hz, if_true, reduceIte, Prod.mk.injEq, and_true] at h
        refine ⟨1, ?_⟩
        rw [← h]
      · obtain ⟨rp, trace, s2, hreg, hs2, heq⟩ :=
          do_process_subsequent cfg o s f d vmap pc hz hpay hint
        rw [heq] at h
        have hfst : _ = s' := congrArg Prod.fst h
        refine ⟨rp, ?_⟩
        rw [← hfst]
        show (update_map cfg o s2 rp f).relative_poses ++ [rp] = s.relative_poses ++ [rp]
        rw [(update_map_proj cfg o s2 rp f).1, hs2]

/-- Error-free processing of a frame list grows the pose history by exactly
one entry per frame. -/
lemma process_frames_length {K : Type} [LinearOrderedCommRing K] (cfg : Config K)
    (o : Oracle K) :
    ∀ (frames : List (Frame K)) (s0 s : OdomState K),
      process_frames cfg o s0 frames = (s, none) →
      s.relative_poses.length = s0.relative_poses.length + frames.length := by
  intro frames
  induction frames with
  | nil =>
    intro s0 s h
    simp only [process_frames, Prod.mk.injEq, and_true] at h
    rw [← h]
    simp
  | cons f rest ih =>
    intro s0 s h
    simp only [process_frames] at h
    cases hstep : do_process_next_frame cfg o s0 f with
    | mk s1 err =>
      rw [hstep] at h
      cases err with
      | none =>
        have hlen := ih s1 s h
        obtain ⟨rp, happ⟩ := do_process_ok_append cfg o s0 f s1 hstep
        rw [hlen, happ]
        simp only [List.length_append, List.length_cons, List.length_nil]
        omega
      | some e => simp at h

/-- C8: after `n` error-free calls starting from the initial state, the
recorded relative poses form a stacked sequence of exactly `n` pose
matrices, one per processed frame in processing order, and
`get_relative_poses` returns it; with no frames processed it returns the
defined absent result `none`. -/
theorem claim_C8_pose_history {K : Type} [LinearOrderedCommRing K] (cfg : Config K)
    (o : Oracle K) (frames : List (Frame K)) (s : OdomState K)
    (h : process_frames cfg o init_state frames = (s, none)) :
    s.relative_poses.length = frames.length ∧
    get_relative_poses s = (if frames.length = 0 then none else some s.relative_poses) := by
  have hlen := process_frames_length cfg o frames init_state s h
  simp only [init_state, List.length_nil, Nat.zero_add] at hlen
  refine ⟨hlen, ?_⟩
  unfold get_relative_poses
  by_cases hz : frames.length = 0
  · rw [if_pos (by omega : s.relative_poses.length = 0), if_pos hz]
  · rw [if_neg (by omega : ¬ s.relative_poses.length = 0), if_neg hz]

/-- Witness for C8 at a concrete input: two well-formed frames processed
from the initial state. -/
theorem claim_C8_witness :
    process_frames wCfg wOracle (init_state : OdomState ℤ) [wFrame, wFrame] =
      ((process_frames wCfg wOracle (init_state : OdomState ℤ) [wFrame, wFrame]).1, none) ∧
    ((process_frames wCfg wOracle (init_state : OdomState ℤ) [wFrame, wFrame]).1.relative_poses.length =
        ([wFrame, wFrame] : List (Frame ℤ)).length ∧
      get_relative_poses (process_frames wCfg wOracle (init_state : OdomState ℤ)
          [wFrame, wFrame]).1 =
        (if ([wFrame, wFrame] : List (Frame ℤ)).length = 0 then none
          else some (process_frames wCfg wOracle (init_state : OdomState ℤ)
            [wFrame, wFrame]).1.relative_poses)) :=
  ⟨by rfl, claim_C8_pose_history wCfg wOracle [wFrame, wFrame] _ (by rfl)⟩

/-- C9: `GaussNewtonPointToPlaneAlignment.align` resolves its initial
estimate before handing it to the Gauss-Newton solver: a missing estimate
becomes the all-zero parameter vector of shape `(B, num_params)` with the
batch size, dtype and device of `ref_points`; a 3-dimensional pose matrix
goes through `pose.from_pose_matrix`; a 2-dimensional parameter vector is
used as given. -/
theorem claim_C9_initial_estimate {K : Type} [LinearOrderedCommRing K] (pose : PoseOps K)
    (gn_compute : Tensor K → Tensor K → Tensor K → Tensor K → Tensor K × Tensor K)
    (ref_points tgt_points ref_normals : Tensor K) :
    (gauss_newton_align pose gn_compute ref_points tgt_points ref_normals none =
      gn_compute
        ⟨[ref_points.shape.headD 0, pose.num_params], ref_points.dtype, ref_points.device,
          List.replicate (ref_points.shape.headD 0 * pose.num_params) 0⟩
        tgt_points ref_points ref_normals) ∧
    (∀ e : Tensor K, e.shape.length = 3 →
      gauss_newton_align pose gn_compute ref_points tgt_points ref_normals (some e) =
        gn_compute (pose.from_pose_matrix_t e) tgt_points ref_points ref_normals) ∧
    (∀ e : Tensor K, e.shape.length = 2 →
      gauss_newton_align pose gn_compute ref_points tgt_points ref_normals (some e) =
        gn_compute e tgt_points ref_points ref_normals) := by
  refine ⟨rfl, ?_, ?_⟩
  · intro e he
    simp [gauss_newton_align, he]
  · intro e he
    simp [gauss_newton_align, he]
